import Mathlib

/-!
# Verification of kt-connect pod lifecycle orchestration and exec bridge

Shallow embedding of `pkg/kt/cluster` pod operations (`DecreasePodRef`,
`ExecInPod`, `waitPodsReady`, `waitPodReady`, `waitPodTerminate`) and of
`pkg/kt/util/collection.go` (`MapPut`), together with theorems settling the
specification claims about them.

The external Kubernetes store is modelled by explicit fetch functions
(`Nat → Except StoreErr Pod` indexed by the attempt number for the polling
loops, a single `Except StoreErr Pod` for one-shot reads), and side effects
(sleeps, fetches, updates) are made observable as explicit traces/lists in
the return value.
-/

set_option autoImplicit false

namespace KtConnect

/-! ## Go map semantics (`map[string]string`, possibly nil) -/

/-- A Go `map[string]string` reference: `none` models a nil map. -/
abbrev GoStrMap := Option (List (String × String))

/-- Association-list update: replace the value at the first occurrence of the
key, or append the pair when the key is absent (Go `m[k] = v`). -/
def assocPut : List (String × String) → String → String → List (String × String)
  | [], k, v => [(k, v)]
  | (k', v') :: rest, k, v =>
    if k' = k then (k, v) :: rest else (k', v') :: assocPut rest k v

/-- Association-list lookup. -/
def assocGet : List (String × String) → String → Option String
  | [], _ => none
  | (k', v') :: rest, k => if k' = k then some v' else assocGet rest k

/-- Go map read `m[k]`: reading a nil map or an absent key yields the zero
value `""`. -/
def mapIndex (m : GoStrMap) (k : String) : String :=
  match m with
  | none => ""
  | some l => (assocGet l k).getD ""

/-- Embeds `util.MapPut` (collection.go lines 38-43). The Go function receives
the map by value (a reference); on a nil map it assigns a fresh map to its
local variable only, so the caller's map is unchanged (`none` stays `none`);
on a non-nil map the store `m[k] = v` is visible to the caller. -/
def MapPut (m : GoStrMap) (k v : String) : GoStrMap :=
  match m with
  | none => none
  | some l => some (assocPut l k v)

/-! ## Data model -/

/-- Pod phase enumeration (`coreV1.PodPhase`). -/
inductive PodPhase where
  | Pending
  | Running
  | Succeeded
  | Failed
  | Unknown
deriving DecidableEq, Repr

/-- The observable pod fields used by the embedded functions: identity,
annotations, status phase and deletion timestamp. -/
structure Pod where
  name : String
  ns : String
  annotations : GoStrMap
  phase : PodPhase
  deletionTimestamp : Option String
deriving DecidableEq, Repr

/-- Errors produced by the external store client. -/
inductive StoreErr where
  /-- Kubernetes NotFound error for the named resource. -/
  | notFound (res : String)
  /-- Any other store-level error. -/
  | internal (msg : String)
deriving DecidableEq, Repr

/-- Errors returned by the embedded cluster functions: either a store error
propagated as-is or one constructed via `fmt.Errorf` with the given message. -/
inductive KtErr where
  | store (e : StoreErr)
  | errMsg (s : String)
deriving DecidableEq, Repr

/-- Observable actions of a polling loop, in order: sleeping for a number of
seconds, or performing the `i`-th fetch (Get/List) against the store. -/
inductive Action where
  | sleep (sec : Nat)
  | fetch (i : Nat)
deriving DecidableEq, Repr

/-- Modelled from the spec: the constant `util.KtRefCount` (the annotation key
carrying the ref count) is not in src; only its role as a fixed key matters. -/
def KtRefCount : String := "kt-ref-count"

deriving instance DecidableEq for Except

/-! ## Integer parsing and `decreaseRef` -/

/-- Accumulate a run of decimal digits; any non-digit character fails. -/
def digitsToNatGo : List Char → Nat → Option Nat
  | [], acc => some acc
  | c :: cs, acc =>
    if c.isDigit then digitsToNatGo cs (acc * 10 + (c.toNat - 48)) else none

/-- Parse a non-empty all-digit string as a `Nat`. -/
def digitsToNat : List Char → Option Nat
  | [] => none
  | l => digitsToNatGo l 0

/-- Modelled from the spec: `strconv.Atoi`-style integer parsing used by the
ref-count code — an optional sign followed by decimal digits; anything else
is a parse error ("a sideband annotation was present but not a valid
integer"). -/
def atoi (s : String) : Except String Int :=
  match s.data with
  | '-' :: rest =>
    match digitsToNat rest with
    | some n => .ok (-(n : Int))
    | none => .error ("invalid integer: " ++ s)
  | '+' :: rest =>
    match digitsToNat rest with
    | some n => .ok (n : Int)
    | none => .error ("invalid integer: " ++ s)
  | l =>
    match digitsToNat l with
    | some n => .ok (n : Int)
    | none => .error ("invalid integer: " ++ s)

/-- Modelled from the spec: `decreaseRef` is called by `DecreasePodRef`
(part_000 line 162) but its body is not in src. Per the spec's decrement path
("otherwise parse, decrement, write back"; malformed counts are a
ParseError), it parses the ref-count string as an integer — failing on a
malformed value — and returns the decremented value rendered as a string. -/
def decreaseRef (refCount : String) : Except String String :=
  match atoi refCount with
  | .error e => .error e
  | .ok n => .ok (toString (n - 1))

/-! ## `DecreasePodRef` -/

/-- Embeds `Kubernetes.DecreasePodRef` (part_000 lines 152-171). The store is
modelled by `get` (the result of `GetPod`) and `update` (the result of
`UpdatePod` on the pod passed to it). Returns the `(cleanup, err)` pair of
named return values together with the list of pods written via `UpdatePod`.

Go subtlety embedded faithfully: in the `decreaseRef` error branch the source
executes a naked `return`, which returns the *named* `err` (nil at that
point, since `GetPod` succeeded) — not `err2`. -/
def DecreasePodRef (get : Except StoreErr Pod) (update : Pod → Except StoreErr Pod) :
    (Bool × Option StoreErr) × List Pod :=
  match get with
  | .error e => ((false, some e), [])
  | .ok pod =>
    let refCount := mapIndex pod.annotations KtRefCount
    if refCount = "1" then
      ((true, none), [])
    else
      match decreaseRef refCount with
      | .error _ => ((false, none), [])
      | .ok count =>
        let pod' := { pod with annotations := MapPut pod.annotations KtRefCount count }
        match update pod' with
        | .error e => ((false, some e), [pod'])
        | .ok _ => ((false, none), [pod'])

/-! ## `ExecInPod` post-processing -/

/-- Modelled from the spec: Go whitespace predicate used by
`strings.TrimSpace` (ASCII whitespace). -/
def isSpaceGo (c : Char) : Bool :=
  c = ' ' || c = '\t' || c = '\n' || c = '\x0d' || c = '\x0b' || c = '\x0c'

/-- Modelled from the spec: `strings.TrimSpace` — drop surrounding
whitespace from both ends ("trim surrounding whitespace"). -/
def trimSpace (s : String) : String :=
  ⟨((s.data.dropWhile isSpaceGo).reverse.dropWhile isSpaceGo).reverse⟩

/-- Strip state machine: outside an escape sequence, drop an ESC character and
enter skipping mode; while skipping, drop everything up to and including the
terminating letter `m`. -/
def removeColorGo : Bool → List Char → List Char
  | _, [] => []
  | true, c :: rest =>
    if c = 'm' then removeColorGo false rest else removeColorGo true rest
  | false, c :: rest =>
    if c = '\x1b' then removeColorGo true rest else c :: removeColorGo false rest

/-- Modelled from the spec: `util.RemoveColor` is not in src; the spec says
ANSI/color escape sequences are stripped from the captured buffers. Modelled
as deleting every run from an ESC character through the color-terminator
`m`. -/
def RemoveColor (s : String) : String :=
  ⟨removeColorGo false s.data⟩

/-- Consume `marker` from the front of the text, returning the remainder. -/
def dropMarker : List Char → List Char → Option (List Char)
  | [], rest => some rest
  | _, [] => none
  | m :: ms, c :: cs => if c = m then dropMarker ms cs else none

/-- Return the text following the first occurrence of `marker`, if any. -/
def findMarker (marker : List Char) : List Char → Option (List Char)
  | [] => none
  | c :: cs =>
    match dropMarker marker (c :: cs) with
    | some rest => some rest
    | none => findMarker marker cs

/-- Modelled from the spec: `util.ExtractErrorMessage` is not in src; the spec
says the stderr text is scanned "for an embedded structured error message (a
cluster-runtime convention of surfacing a human-readable failure reason
inside stderr)". Modelled as the text after the first occurrence of an
`error: ` marker, and the empty string when no marker is present. -/
def ExtractErrorMessage (s : String) : String :=
  match findMarker ("error: ".data) s.data with
  | some rest => ⟨rest⟩
  | none => ""

/-- Embeds the post-processing of `Kubernetes.ExecInPod` (part_000 lines
104-130). The exec transport is modelled by its outcome: `transportErr` (the
`execute` result, an error message when non-nil) and the raw bytes captured
in the stdout/stderr buffers. Returns `(stdoutMsg, stderrMsg, err)`, with an
error modelled as its message string (`fmt.Errorf(rawErrMsg)`). -/
def ExecInPod (transportErr : Option String) (stdoutRaw stderrRaw : String) :
    String × String × Option String :=
  let stdoutMsg := RemoveColor (trimSpace stdoutRaw)
  let stderrMsg := RemoveColor (trimSpace stderrRaw)
  let rawErrMsg := ExtractErrorMessage stderrMsg
  match transportErr with
  | none =>
    if rawErrMsg ≠ "" then (stdoutMsg, stderrMsg, some rawErrMsg)
    else (stdoutMsg, stderrMsg, none)
  | some e => (stdoutMsg, stderrMsg, some e)

/-! ## The three polling loops

Each loop is embedded with its `times` counter exactly as in the source; to
make the recursion structural (and hence executable), the recursion runs on
the remaining budget `rem`, related to the source counter by
`rem = bound + 1 - times`, so that the source guard `times > bound` is
exactly `rem = 0` (natural subtraction). The store is a function from the
attempt number `times` to the fetch outcome, and the returned trace records
every sleep and fetch in order. -/

/-- Modelled from the spec: `filterRunningPods` is called by `waitPodsReady`
(part_000 line 186) but its body is not in src; the spec says the listed
instances are filtered "to those in Running phase". -/
def filterRunningPods (pods : List Pod) : List Pod :=
  pods.filter (fun p => p.phase = PodPhase.Running)

/-- Loop body of `Kubernetes.waitPodsReady` (part_000 lines 173-194), with
`rem = timeoutSec / 6 + 1 - times`: list pods (a fetch happens on every
iteration, including the final over-budget one); propagate a list error; when
the budget is exhausted fail — NotFound-style if the just-listed set is
empty, otherwise "failed to start" naming the first listed pod; when some
listed pod is Running return the running subset; otherwise sleep one second
(the source sleeps `1 * time.Second` here) and retry. -/
def waitPodsReadyLoop (list : Nat → Except StoreErr (List Pod)) (labels : String) :
    Nat → Nat → Except KtErr (List Pod) × List Action
  | rem, times =>
    match list times with
    | .error e => (.error (.store e), [.fetch times])
    | .ok pods =>
      match rem with
      | 0 =>
        match pods with
        | [] => (.error (.errMsg ("pod with label " ++ labels ++ " not found")), [.fetch times])
        | p :: _ => (.error (.errMsg ("pod " ++ p.name ++ " failed to start")), [.fetch times])
      | rem' + 1 =>
        let runningPods := filterRunningPods pods
        if runningPods.length > 0 then
          (.ok runningPods, [.fetch times])
        else
          let r := waitPodsReadyLoop list labels rem' (times + 1)
          (r.1, .fetch times :: .sleep 1 :: r.2)

/-- Embeds `Kubernetes.waitPodsReady` at counter value `times`. -/
def waitPodsReady (list : Nat → Except StoreErr (List Pod)) (labels : String)
    (timeoutSec times : Nat) : Except KtErr (List Pod) × List Action :=
  waitPodsReadyLoop list labels (timeoutSec / 6 + 1 - times) times

/-- Embeds `Kubernetes.WaitPodsReady` (part_000 lines 58-60): start at
`times = 0`. -/
def WaitPodsReady (list : Nat → Except StoreErr (List Pod)) (labels : String)
    (timeoutSec : Nat) : Except KtErr (List Pod) × List Action :=
  waitPodsReady list labels timeoutSec 0

/-- Loop body of `Kubernetes.waitPodReady` (part_000 lines 196-212), with
`rem = timeoutSec / 6 + 1 - times`: when the budget is exhausted
(`times > timeoutSec / 6`, i.e. `rem = 0`) fail with "failed to start"
without fetching; otherwise fetch the pod, propagating a fetch error; if its
phase is not Running sleep 6 seconds and retry, else return it. -/
def waitPodReadyLoop (get : Nat → Except StoreErr Pod) (name : String) :
    Nat → Nat → Except KtErr Pod × List Action
  | 0, _ => (.error (.errMsg ("pod " ++ name ++ " failed to start")), [])
  | rem' + 1, times =>
    match get times with
    | .error e => (.error (.store e), [.fetch times])
    | .ok pod =>
      if pod.phase ≠ PodPhase.Running then
        let r := waitPodReadyLoop get name rem' (times + 1)
        (r.1, .fetch times :: .sleep 6 :: r.2)
      else
        (.ok pod, [.fetch times])

/-- Embeds `Kubernetes.waitPodReady` at counter value `times`. -/
def waitPodReady (get : Nat → Except StoreErr Pod) (name : String)
    (timeoutSec times : Nat) : Except KtErr Pod × List Action :=
  waitPodReadyLoop get name (timeoutSec / 6 + 1 - times) times

/-- Embeds `Kubernetes.WaitPodReady` (part_000 lines 62-65): start at
`times = 0`. -/
def WaitPodReady (get : Nat → Except StoreErr Pod) (name : String)
    (timeoutSec : Nat) : Except KtErr Pod × List Action :=
  waitPodReady get name timeoutSec 0

/-- Loop body of `Kubernetes.waitPodTerminate` (part_000 lines 214-230), with
`rem = 11 - times` (the source guard is the fixed `times > 10`, no caller
timeout): when the cap is exceeded fail with the "still terminating" error;
otherwise sleep 6 seconds, then fetch; a fetch error — including NotFound
when the pod finally terminated, per the source comment — is returned as-is;
if the pod still carries a deletion timestamp retry; otherwise return the pod
as a non-error result. -/
def waitPodTerminateLoop (get : Nat → Except StoreErr Pod) (name : String) :
    Nat → Nat → Except KtErr Pod × List Action
  | 0, _ => (.error (.errMsg ("pod '" ++ name ++ "' still terminating, please try again later")), [])
  | rem' + 1, times =>
    match get times with
    | .error e => (.error (.store e), [.sleep 6, .fetch times])
    | .ok routerPod =>
      if routerPod.deletionTimestamp ≠ none then
        let r := waitPodTerminateLoop get name rem' (times + 1)
        (r.1, .sleep 6 :: .fetch times :: r.2)
      else
        (.ok routerPod, [.sleep 6, .fetch times])

/-- Embeds `Kubernetes.waitPodTerminate` at counter value `times`. -/
def waitPodTerminate (get : Nat → Except StoreErr Pod) (name : String)
    (times : Nat) : Except KtErr Pod × List Action :=
  waitPodTerminateLoop get name (11 - times) times

/-- Embeds `Kubernetes.WaitPodTerminate` (part_000 lines 67-70): start at
`times = 0`. -/
def WaitPodTerminate (get : Nat → Except StoreErr Pod) (name : String) :
    Except KtErr Pod × List Action :=
  waitPodTerminate get name 0

/-- The number of fetch attempts recorded in a trace. -/
def countFetches (tr : List Action) : Nat :=
  tr.countP (fun a => match a with | .fetch _ => true | .sleep _ => false)

/-- The canonical trace of `k` terminate-wait attempts starting at attempt
index `i`: each attempt sleeps 6 seconds and then fetches. -/
def terminateTrace : Nat → Nat → List Action
  | 0, _ => []
  | k + 1, i => .sleep 6 :: .fetch i :: terminateTrace k (i + 1)

/-! ## Helper lemmas -/

theorem assocGet_assocPut_self (l : List (String × String)) (k v : String) :
    assocGet (assocPut l k v) k = some v := by
  induction l with
  | nil => simp [assocPut, assocGet]
  | cons hd tl ih =>
    obtain ⟨k', v'⟩ := hd
    by_cases h : k' = k
    · simp [assocPut, assocGet, h]
    · simp [assocPut, assocGet, h, ih]

theorem assocGet_assocPut_ne (l : List (String × String)) (k v k' : String)
    (h : k' ≠ k) :
    assocGet (assocPut l k v) k' = assocGet l k' := by
  induction l with
  | nil => simp [assocPut, assocGet, Ne.symm h]
  | cons hd tl ih =>
    obtain ⟨k'', v''⟩ := hd
    by_cases h2 : k'' = k
    · subst h2
      simp [assocPut, assocGet, h, Ne.symm h]
    · simp [assocPut, assocGet, h2, ih]

theorem countFetches_nil : countFetches [] = 0 := rfl

theorem countFetches_fetch (i : Nat) (tr : List Action) :
    countFetches (.fetch i :: tr) = countFetches tr + 1 := by
  simp [countFetches]

theorem countFetches_sleep (s : Nat) (tr : List Action) :
    countFetches (.sleep s :: tr) = countFetches tr := by
  simp [countFetches]

theorem countFetches_terminateTrace : ∀ k i, countFetches (terminateTrace k i) = k := by
  intro k
  induction k with
  | zero => intro i; rfl
  | succ k ih =>
    intro i
    simp [terminateTrace, countFetches_sleep, countFetches_fetch, ih]

theorem waitPodReadyLoop_fetch_bound (get : Nat → Except StoreErr Pod) (name : String) :
    ∀ rem times, countFetches (waitPodReadyLoop get name rem times).2 ≤ rem := by
  intro rem
  induction rem with
  | zero => intro times; simp [waitPodReadyLoop, countFetches]
  | succ rem ih =>
    intro times
    cases hg : get times with
    | error e =>
      simp only [waitPodReadyLoop, hg, countFetches_fetch, countFetches_nil]
      omega
    | ok pod =>
      by_cases hp : pod.phase = PodPhase.Running
      · simp only [waitPodReadyLoop, hg, if_neg (not_not_intro hp), countFetches_fetch,
          countFetches_nil]
        omega
      · have hne : pod.phase ≠ PodPhase.Running := hp
        simp only [waitPodReadyLoop, hg, if_pos hne, countFetches_fetch, countFetches_sleep]
        have := ih (times + 1)
        omega

theorem waitPodReadyLoop_timeout (get : Nat → Except StoreErr Pod) (name : String) :
    ∀ rem times,
      (∀ i, i < rem → ∃ p, get (times + i) = .ok p ∧ p.phase ≠ PodPhase.Running) →
      (waitPodReadyLoop get name rem times).1 =
        .error (.errMsg ("pod " ++ name ++ " failed to start")) := by
  intro rem
  induction rem with
  | zero => intro times _; simp [waitPodReadyLoop]
  | succ rem ih =>
    intro times h
    obtain ⟨p, hget, hp⟩ := h 0 (Nat.succ_pos rem)
    rw [Nat.add_zero] at hget
    simp only [waitPodReadyLoop, hget, if_pos hp]
    refine ih (times + 1) (fun i hi => ?_)
    have := h (i + 1) (Nat.succ_lt_succ hi)
    rwa [show times + (i + 1) = times + 1 + i by omega] at this

theorem waitPodReadyLoop_ok_running (get : Nat → Except StoreErr Pod) (name : String) :
    ∀ rem times pod, (waitPodReadyLoop get name rem times).1 = .ok pod →
      pod.phase = PodPhase.Running := by
  intro rem
  induction rem with
  | zero => intro times pod h; simp [waitPodReadyLoop] at h
  | succ rem ih =>
    intro times pod h
    cases hg : get times with
    | error e => simp [waitPodReadyLoop, hg] at h
    | ok q =>
      by_cases hp : q.phase = PodPhase.Running
      · simp only [waitPodReadyLoop, hg, if_neg (not_not_intro hp)] at h
        simp at h
        exact h ▸ hp
      · simp only [waitPodReadyLoop, hg, if_pos (hp : q.phase ≠ PodPhase.Running)] at h
        exact ih (times + 1) pod h

theorem waitPodsReadyLoop_ok_running (list : Nat → Except StoreErr (List Pod))
    (labels : String) :
    ∀ rem times pods, (waitPodsReadyLoop list labels rem times).1 = .ok pods →
      ∀ p ∈ pods, p.phase = PodPhase.Running := by
  intro rem
  induction rem with
  | zero =>
    intro times pods h p hp
    rw [waitPodsReadyLoop] at h
    cases hl : list times with
    | error e => rw [hl] at h; simp at h
    | ok ps =>
      rw [hl] at h
      cases ps with
      | nil => simp at h
      | cons q qs => simp at h
  | succ rem ih =>
    intro times pods h p hp
    rw [waitPodsReadyLoop] at h
    cases hl : list times with
    | error e => rw [hl] at h; simp at h
    | ok ps =>
      rw [hl] at h
      by_cases hr : (filterRunningPods ps).length > 0
      · simp only [if_pos hr] at h
        simp at h
        rw [← h] at hp
        simp [filterRunningPods, List.mem_filter] at hp
        exact hp.2
      · simp only [if_neg hr] at h
        exact ih (times + 1) pods h p hp

theorem waitPodsReadyLoop_exhaust (list : Nat → Except StoreErr (List Pod))
    (labels : String) :
    ∀ rem times,
      (∀ i, i < rem → ∃ ps, list (times + i) = .ok ps ∧ filterRunningPods ps = []) →
      (waitPodsReadyLoop list labels rem times).1 =
        (match list (times + rem) with
          | .error e => .error (.store e)
          | .ok [] => .error (.errMsg ("pod with label " ++ labels ++ " not found"))
          | .ok (p :: _) => .error (.errMsg ("pod " ++ p.name ++ " failed to start"))) := by
  intro rem
  induction rem with
  | zero =>
    intro times _
    rw [Nat.add_zero, waitPodsReadyLoop]
    cases hl : list times with
    | error e => simp
    | ok ps =>
      cases ps with
      | nil => simp
      | cons q qs => simp
  | succ rem ih =>
    intro times h
    obtain ⟨ps, hl, hfil⟩ := h 0 (Nat.succ_pos rem)
    rw [Nat.add_zero] at hl
    have hr : ¬((filterRunningPods ps).length > 0) := by simp [hfil]
    rw [waitPodsReadyLoop, hl]
    simp only [if_neg hr]
    rw [show times + (rem + 1) = (times + 1) + rem by omega]
    refine ih (times + 1) (fun i hi => ?_)
    have := h (i + 1) (Nat.succ_lt_succ hi)
    rwa [show times + (i + 1) = times + 1 + i by omega] at this

theorem waitPodsReadyLoop_fetch_bound (list : Nat → Except StoreErr (List Pod))
    (labels : String) :
    ∀ rem times, countFetches (waitPodsReadyLoop list labels rem times).2 ≤ rem + 1 := by
  intro rem
  induction rem with
  | zero =>
    intro times
    rw [waitPodsReadyLoop]
    cases hl : list times with
    | error e => simp [countFetches]
    | ok ps =>
      cases ps with
      | nil => simp [countFetches]
      | cons q qs => simp [countFetches]
  | succ rem ih =>
    intro times
    rw [waitPodsReadyLoop]
    cases hl : list times with
    | error e => simp [countFetches]
    | ok ps =>
      by_cases hr : (filterRunningPods ps).length > 0
      · simp only [if_pos hr, countFetches_fetch, countFetches_nil]
        omega
      · simp only [if_neg hr, countFetches_fetch, countFetches_sleep]
        have := ih (times + 1)
        omega

theorem waitPodReadyLoop_sleep (get : Nat → Except StoreErr Pod) (name : String) :
    ∀ rem times s, Action.sleep s ∈ (waitPodReadyLoop get name rem times).2 → s = 6 := by
  intro rem
  induction rem with
  | zero => intro times s h; simp [waitPodReadyLoop] at h
  | succ rem ih =>
    intro times s h
    cases hg : get times with
    | error e => simp [waitPodReadyLoop, hg] at h
    | ok pod =>
      by_cases hp : pod.phase = PodPhase.Running
      · simp [waitPodReadyLoop, hg, if_neg (not_not_intro hp)] at h
      · simp only [waitPodReadyLoop, hg, if_pos (hp : pod.phase ≠ PodPhase.Running),
          List.mem_cons] at h
        rcases h with h | h | h
        · exact absurd h (by simp)
        · exact (Action.sleep.injEq s 6).mp h
        · exact ih (times + 1) s h

theorem waitPodTerminateLoop_sleep (get : Nat → Except StoreErr Pod) (name : String) :
    ∀ rem times s, Action.sleep s ∈ (waitPodTerminateLoop get name rem times).2 → s = 6 := by
  intro rem
  induction rem with
  | zero => intro times s h; simp [waitPodTerminateLoop] at h
  | succ rem ih =>
    intro times s h
    cases hg : get times with
    | error e =>
      simp [waitPodTerminateLoop, hg] at h
      exact h
    | ok pod =>
      by_cases hp : pod.deletionTimestamp = none
      · simp [waitPodTerminateLoop, hg, if_neg (not_not_intro hp)] at h
        exact h
      · simp only [waitPodTerminateLoop, hg,
          if_pos (hp : pod.deletionTimestamp ≠ none), List.mem_cons] at h
        rcases h with h | h | h
        · exact (Action.sleep.injEq s 6).mp h
        · exact absurd h (by simp)
        · exact ih (times + 1) s h

theorem waitPodsReadyLoop_sleep (list : Nat → Except StoreErr (List Pod))
    (labels : String) :
    ∀ rem times s, Action.sleep s ∈ (waitPodsReadyLoop list labels rem times).2 → s = 1 := by
  intro rem
  induction rem with
  | zero =>
    intro times s h
    rw [waitPodsReadyLoop] at h
    cases hl : list times with
    | error e => rw [hl] at h; simp at h
    | ok ps =>
      rw [hl] at h
      cases ps with
      | nil => simp at h
      | cons q qs => simp at h
  | succ rem ih =>
    intro times s h
    rw [waitPodsReadyLoop] at h
    cases hl : list times with
    | error e => rw [hl] at h; simp at h
    | ok ps =>
      rw [hl] at h
      by_cases hr : (filterRunningPods ps).length > 0
      · simp only [if_pos hr] at h
        simp at h
      · simp only [if_neg hr, List.mem_cons] at h
        rcases h with h | h | h
        · exact absurd h (by simp)
        · exact (Action.sleep.injEq s 1).mp h
        · exact ih (times + 1) s h

theorem waitPodTerminateLoop_trace (get : Nat → Except StoreErr Pod) (name : String) :
    ∀ rem times, ∃ k, k ≤ rem ∧
      (waitPodTerminateLoop get name rem times).2 = terminateTrace k times := by
  intro rem
  induction rem with
  | zero => intro times; exact ⟨0, le_refl 0, rfl⟩
  | succ rem ih =>
    intro times
    cases hg : get times with
    | error e =>
      refine ⟨1, by omega, ?_⟩
      simp [waitPodTerminateLoop, hg, terminateTrace]
    | ok pod =>
      by_cases hp : pod.deletionTimestamp = none
      · refine ⟨1, by omega, ?_⟩
        simp [waitPodTerminateLoop, hg, if_neg (not_not_intro hp), terminateTrace]
      · obtain ⟨k, hk, htr⟩ := ih (times + 1)
        refine ⟨k + 1, by omega, ?_⟩
        simp only [waitPodTerminateLoop, hg,
          if_pos (hp : pod.deletionTimestamp ≠ none), terminateTrace]
        rw [htr]

theorem waitPodTerminateLoop_exhaust (get : Nat → Except StoreErr Pod) (name : String) :
    ∀ rem times,
      (∀ i, i < rem → ∃ p, get (times + i) = .ok p ∧ p.deletionTimestamp ≠ none) →
      (waitPodTerminateLoop get name rem times).1 =
        .error (.errMsg ("pod '" ++ name ++ "' still terminating, please try again later")) := by
  intro rem
  induction rem with
  | zero => intro times _; simp [waitPodTerminateLoop]
  | succ rem ih =>
    intro times h
    obtain ⟨p, hget, hp⟩ := h 0 (Nat.succ_pos rem)
    rw [Nat.add_zero] at hget
    simp only [waitPodTerminateLoop, hget, if_pos hp]
    refine ih (times + 1) (fun i hi => ?_)
    have := h (i + 1) (Nat.succ_lt_succ hi)
    rwa [show times + (i + 1) = times + 1 + i by omega] at this

/-! ## Claim C10: MapPut on nil and non-nil maps -/

/-- C10: `MapPut(m, k, v)` on a nil map returns without error and without
storing anything (the caller's map is still nil — the insertion is silently
lost, since the function only replaces its local copy), while on every
non-nil map it sets `m[k] = v` and leaves all other entries unchanged. -/
theorem c10_mapput_nil_lost_nonnil_stores (l : List (String × String)) (k v k' : String)
    (h : k' ≠ k) :
    MapPut none k v = none ∧
    mapIndex (MapPut (some l) k v) k = v ∧
    mapIndex (MapPut (some l) k v) k' = mapIndex (some l) k' := by
  refine ⟨rfl, ?_, ?_⟩
  · simp [MapPut, mapIndex, assocGet_assocPut_self]
  · simp [MapPut, mapIndex, assocGet_assocPut_ne l k v k' h]

/-- Witness for C10 at a concrete map and keys. -/
theorem c10_witness :
    MapPut none "k" "v" = none ∧
    mapIndex (MapPut (some [("a", "1")]) "k" "v") "k" = "v" ∧
    mapIndex (MapPut (some [("a", "1")]) "k" "v") "a" = mapIndex (some [("a", "1")]) "a" :=
  c10_mapput_nil_lost_nonnil_stores [("a", "1")] "k" "v" "a" (by decide)

/-! ## Claim C7: DecreasePodRef on ref-count "1" -/

/-- C7: for every pod whose ref-count annotation equals `"1"`,
`DecreasePodRef` returns `cleanup = true` with a nil error and performs zero
writes to the store, for any behaviour of the update operation. -/
theorem c7_decrease_ref_one_no_write (pod : Pod) (update : Pod → Except StoreErr Pod)
    (h : mapIndex pod.annotations KtRefCount = "1") :
    DecreasePodRef (.ok pod) update = ((true, none), []) := by
  simp [DecreasePodRef, h]

/-- Witness for C7 at a concrete pod carrying ref-count "1". -/
theorem c7_witness :
    DecreasePodRef
      (.ok ⟨"shadow-pod", "default", some [(KtRefCount, "1")], PodPhase.Running, none⟩)
      (fun p => .ok p) = ((true, none), []) :=
  c7_decrease_ref_one_no_write
    ⟨"shadow-pod", "default", some [(KtRefCount, "1")], PodPhase.Running, none⟩
    (fun p => .ok p) (by decide)

/-! ## Claim C2: DecreasePodRef on a malformed count (code bug) -/

/-- C2 (code bug): on a pod whose ref-count annotation is the non-numeric
string `"abc"`, `DecreasePodRef` performs no write — but returns a *nil*
error, not the fatal error the spec requires: the source's naked `return` in
the `decreaseRef`-error branch returns the named `err` (nil after the
successful fetch) and silently drops `err2`. -/
theorem c2_decrease_invalid_count_eval :
    DecreasePodRef
      (.ok ⟨"shadow-pod", "default", some [(KtRefCount, "abc")], PodPhase.Running, none⟩)
      (fun p => .ok p) = ((false, none), []) := by
  decide

/-! ## Claim C3: ExecInPod with an embedded stderr failure marker -/

/-- C3: when the transport-level error is nil but the sanitized stderr
contains an embedded failure marker, `ExecInPod` returns an error whose
message equals the extracted marker text, and both returned streams are the
captured buffers with ANSI/color sequences removed and surrounding
whitespace trimmed. -/
theorem c3_exec_embedded_error (stdoutRaw stderrRaw : String)
    (h : ExtractErrorMessage (RemoveColor (trimSpace stderrRaw)) ≠ "") :
    ExecInPod none stdoutRaw stderrRaw =
      (RemoveColor (trimSpace stdoutRaw), RemoveColor (trimSpace stderrRaw),
        some (ExtractErrorMessage (RemoveColor (trimSpace stderrRaw)))) := by
  simp [ExecInPod, h]

/-- Witness for C3: a colored stdout and a stderr carrying the embedded
marker `error: `. -/
theorem c3_witness :
    ExecInPod none "  \x1b[0;31mhi\x1b[0m" " error: oh no \x0a" =
      (RemoveColor (trimSpace "  \x1b[0;31mhi\x1b[0m"),
        RemoveColor (trimSpace " error: oh no \x0a"),
        some (ExtractErrorMessage (RemoveColor (trimSpace " error: oh no \x0a")))) :=
  c3_exec_embedded_error "  \x1b[0;31mhi\x1b[0m" " error: oh no \x0a" (by decide)

/-- The C3 witness computes to the expected concrete triple: sanitized
stdout `"hi"`, sanitized stderr `"error: oh no"`, and the error message
`"oh no"` extracted from the marker. -/
theorem c3_witness_value :
    ExecInPod none "  \x1b[0;31mhi\x1b[0m" " error: oh no \x0a" =
      ("hi", "error: oh no", some "oh no") := by
  decide

/-! ## Claim C4: WaitPodReady attempt bound -/

/-- C4: for every `timeoutSec`, `WaitPodReady` (interval 6) performs at most
`timeoutSec / 6 + 1` fetch attempts, and when every in-budget fetch observes
a non-Running pod it fails with the Timeout error naming the pod. -/
theorem c4_wait_running_attempt_bound (get : Nat → Except StoreErr Pod)
    (name : String) (timeoutSec : Nat) :
    countFetches (WaitPodReady get name timeoutSec).2 ≤ timeoutSec / 6 + 1 ∧
    ((∀ i, i ≤ timeoutSec / 6 → ∃ p, get i = .ok p ∧ p.phase ≠ PodPhase.Running) →
      (WaitPodReady get name timeoutSec).1 =
        .error (.errMsg ("pod " ++ name ++ " failed to start"))) := by
  constructor
  · have := waitPodReadyLoop_fetch_bound get name (timeoutSec / 6 + 1) 0
    simpa [WaitPodReady, waitPodReady] using this
  · intro h
    have := waitPodReadyLoop_timeout get name (timeoutSec / 6 + 1) 0
      (fun i hi => by simpa using h i (Nat.lt_succ_iff.mp hi))
    simpa [WaitPodReady, waitPodReady] using this

/-- Witness for C4: a pod that stays Pending for a 6-second timeout. -/
theorem c4_witness :
    countFetches (WaitPodReady (fun _ => .ok ⟨"p", "ns", none, PodPhase.Pending, none⟩)
        "p" 6).2 ≤ 6 / 6 + 1 ∧
    ((∀ i, i ≤ 6 / 6 → ∃ q, (fun (_ : Nat) =>
        (.ok ⟨"p", "ns", none, PodPhase.Pending, none⟩ : Except StoreErr Pod)) i = .ok q ∧
        q.phase ≠ PodPhase.Running) →
      (WaitPodReady (fun _ => .ok ⟨"p", "ns", none, PodPhase.Pending, none⟩) "p" 6).1 =
        .error (.errMsg ("pod " ++ "p" ++ " failed to start"))) :=
  c4_wait_running_attempt_bound
    (fun _ => .ok ⟨"p", "ns", none, PodPhase.Pending, none⟩) "p" 6

/-- The C4 witness hypothesis is satisfiable and the bound is tight there:
the always-Pending store under timeout 6 performs exactly 2 fetches and ends
with the Timeout error. -/
theorem c4_witness_value :
    countFetches (WaitPodReady (fun _ => .ok ⟨"p", "ns", none, PodPhase.Pending, none⟩)
        "p" 6).2 = 2 ∧
    (WaitPodReady (fun _ => .ok ⟨"p", "ns", none, PodPhase.Pending, none⟩) "p" 6).1 =
      .error (.errMsg "pod p failed to start") := by
  decide

/-! ## Claim C9: successful poller results are Running -/

/-- C9: every successful return of `waitPodReady` is a pod in Running phase,
and every successful return of `waitPodsReady` contains only pods in Running
phase — at any counter value, so a poller never returns a non-Running
instance as success. -/
theorem c9_poller_success_running (get : Nat → Except StoreErr Pod)
    (list : Nat → Except StoreErr (List Pod)) (name labels : String)
    (timeoutSec times : Nat) :
    (∀ pod, (waitPodReady get name timeoutSec times).1 = .ok pod →
      pod.phase = PodPhase.Running) ∧
    (∀ pods, (waitPodsReady list labels timeoutSec times).1 = .ok pods →
      ∀ p ∈ pods, p.phase = PodPhase.Running) := by
  constructor
  · intro pod h
    exact waitPodReadyLoop_ok_running get name _ _ pod h
  · intro pods h p hp
    exact waitPodsReadyLoop_ok_running list labels _ _ pods h p hp

/-- Witness for C9 at concrete stores that do reach success. -/
theorem c9_witness :
    (⟨"p", "ns", none, PodPhase.Running, none⟩ : Pod).phase = PodPhase.Running ∧
    ∀ q ∈ [(⟨"q", "ns", none, PodPhase.Running, none⟩ : Pod)],
      q.phase = PodPhase.Running :=
  ⟨(c9_poller_success_running (fun _ => .ok ⟨"p", "ns", none, PodPhase.Running, none⟩)
      (fun _ => .ok [⟨"q", "ns", none, PodPhase.Running, none⟩]) "p" "l" 6 0).1
      ⟨"p", "ns", none, PodPhase.Running, none⟩ (by decide),
   (c9_poller_success_running (fun _ => .ok ⟨"p", "ns", none, PodPhase.Running, none⟩)
      (fun _ => .ok [⟨"q", "ns", none, PodPhase.Running, none⟩]) "p" "l" 6 0).2
      [⟨"q", "ns", none, PodPhase.Running, none⟩] (by decide)⟩

/-! ## Claim C1: terminate wait on a NotFound fetch (corrected) -/

/-- C1 counterexample: with a store whose fetch fails NotFound on the first
attempt, `WaitPodTerminate` does *not* complete as a success — it returns a
non-nil error (the NotFound error itself) and a nil pod, refuting "the wait
completes as a success (a non-error result)". -/
theorem c1_counterexample :
    WaitPodTerminate (fun _ => .error (.notFound "p")) "p" =
      (.error (.store (.notFound "p")), [.sleep 6, .fetch 0]) := by
  decide

/-- C1 amended: when a fetch of `waitPodTerminate` fails (in particular with
NotFound, which the source comments is the signal that the pod finally
terminated), the wait stops immediately — at any attempt count that reaches
a fetch — and returns that store error as a non-nil error with no pod. -/
theorem c1_terminate_fetch_error_returned (get : Nat → Except StoreErr Pod)
    (name : String) (times : Nat) (e : StoreErr)
    (hle : times ≤ 10) (hget : get times = .error e) :
    waitPodTerminate get name times = (.error (.store e), [.sleep 6, .fetch times]) := by
  obtain ⟨r, hr⟩ : ∃ r, 11 - times = r + 1 := ⟨10 - times, by omega⟩
  unfold waitPodTerminate
  rw [hr]
  simp [waitPodTerminateLoop, hget]

/-- Witness for C1's amended claim: NotFound at attempt 7. -/
theorem c1_witness :
    waitPodTerminate
      (fun i => if i = 7 then .error (.notFound "p") else .ok ⟨"p", "ns", none,
        PodPhase.Running, some "t"⟩) "p" 7 =
      (.error (.store (.notFound "p")), [.sleep 6, .fetch 7]) :=
  c1_terminate_fetch_error_returned
    (fun i => if i = 7 then .error (.notFound "p") else .ok ⟨"p", "ns", none,
      PodPhase.Running, some "t"⟩) "p" 7 (.notFound "p") (by decide) (by decide)

/-! ## Claim C5: terminate wait attempt cap (corrected: 11, not 10) -/

/-- C5 counterexample: with a pod that carries a deletion timestamp forever,
`WaitPodTerminate` performs 11 fetch attempts — the `times > 10` guard with
`times` starting at 0 admits attempts 0..10 — so "makes at most 10 attempts"
is false. -/
theorem c5_counterexample :
    countFetches (WaitPodTerminate
      (fun _ => .ok ⟨"p", "ns", none, PodPhase.Running, some "t"⟩) "p").2 = 11 ∧
    ¬(countFetches (WaitPodTerminate
      (fun _ => .ok ⟨"p", "ns", none, PodPhase.Running, some "t"⟩) "p").2 ≤ 10) := by
  decide

/-- C5 amended: `WaitPodTerminate` makes at most 11 attempts (the `times > 10`
guard with `times` from 0), each attempt sleeping 6 units first and then
fetching — the trace is exactly `k` sleep-then-fetch pairs for some `k ≤ 11`
— with no caller-supplied timeout in sight; when every attempt up to the cap
observes a pod still carrying a deletion timestamp, it fails with the error
naming the pod as still terminating. -/
theorem c5_terminate_cap_eleven (get : Nat → Except StoreErr Pod) (name : String) :
    (∃ k, k ≤ 11 ∧ (WaitPodTerminate get name).2 = terminateTrace k 0) ∧
    countFetches (WaitPodTerminate get name).2 ≤ 11 ∧
    ((∀ i, i ≤ 10 → ∃ p, get i = .ok p ∧ p.deletionTimestamp ≠ none) →
      (WaitPodTerminate get name).1 =
        .error (.errMsg ("pod '" ++ name ++ "' still terminating, please try again later"))) := by
  refine ⟨?_, ?_, ?_⟩
  · have := waitPodTerminateLoop_trace get name 11 0
    simpa [WaitPodTerminate, waitPodTerminate] using this
  · obtain ⟨k, hk, htr⟩ := waitPodTerminateLoop_trace get name 11 0
    have : (WaitPodTerminate get name).2 = terminateTrace k 0 := by
      simpa [WaitPodTerminate, waitPodTerminate] using htr
    rw [this, countFetches_terminateTrace]
    exact hk
  · intro h
    have := waitPodTerminateLoop_exhaust get name 11 0
      (fun i hi => by simpa using h i (by omega))
    simpa [WaitPodTerminate, waitPodTerminate] using this

/-- Witness for C5's amended claim: the always-terminating store exhausts the
cap. -/
theorem c5_witness :
    (∃ k, k ≤ 11 ∧ (WaitPodTerminate
      (fun _ => .ok ⟨"p", "ns", none, PodPhase.Running, some "t"⟩) "p").2 =
        terminateTrace k 0) ∧
    countFetches (WaitPodTerminate
      (fun _ => .ok ⟨"p", "ns", none, PodPhase.Running, some "t"⟩) "p").2 ≤ 11 ∧
    ((∀ i, i ≤ 10 → ∃ p, (fun (_ : Nat) => (.ok ⟨"p", "ns", none, PodPhase.Running,
        some "t"⟩ : Except StoreErr Pod)) i = .ok p ∧ p.deletionTimestamp ≠ none) →
      (WaitPodTerminate
        (fun _ => .ok ⟨"p", "ns", none, PodPhase.Running, some "t"⟩) "p").1 =
        .error (.errMsg ("pod '" ++ "p" ++ "' still terminating, please try again later"))) :=
  c5_terminate_cap_eleven
    (fun _ => .ok ⟨"p", "ns", none, PodPhase.Running, some "t"⟩) "p"

/-! ## Claim C6: set-ready exhaustion error selection (corrected) -/

/-- C6 counterexample: the listed set is empty at attempt 0 (inside the
window) but non-empty at the final over-budget attempt; the wait fails with
the "failed to start" Timeout-style error, not the NotFound-style error the
claim requires when "the listed set was empty at any point". -/
theorem c6_counterexample :
    (fun i => if i = 0 then (.ok [] : Except StoreErr (List Pod))
      else .ok [⟨"p", "ns", none, PodPhase.Pending, none⟩]) 0 = .ok [] ∧
    (WaitPodsReady (fun i => if i = 0 then (.ok [] : Except StoreErr (List Pod))
      else .ok [⟨"p", "ns", none, PodPhase.Pending, none⟩]) "app=x" 0).1 =
      .error (.errMsg "pod p failed to start") ∧
    (WaitPodsReady (fun i => if i = 0 then (.ok [] : Except StoreErr (List Pod))
      else .ok [⟨"p", "ns", none, PodPhase.Pending, none⟩]) "app=x" 0).1 ≠
      .error (.errMsg "pod with label app=x not found") := by
  decide

/-- C6 amended: when every in-budget attempt lists successfully with no
Running pod, the error is chosen by the list fetched at the final
(over-budget) attempt `timeoutSec / 6 + 1`: if that list is empty the wait
fails NotFound-style naming the selector, otherwise Timeout-style naming the
first pod of that final list. -/
theorem c6_set_ready_exhaust_final_list (list : Nat → Except StoreErr (List Pod))
    (labels : String) (timeoutSec : Nat)
    (h : ∀ i, i ≤ timeoutSec / 6 → ∃ ps, list i = .ok ps ∧ filterRunningPods ps = []) :
    (list (timeoutSec / 6 + 1) = .ok [] →
      (WaitPodsReady list labels timeoutSec).1 =
        .error (.errMsg ("pod with label " ++ labels ++ " not found"))) ∧
    (∀ p ps', list (timeoutSec / 6 + 1) = .ok (p :: ps') →
      (WaitPodsReady list labels timeoutSec).1 =
        .error (.errMsg ("pod " ++ p.name ++ " failed to start"))) := by
  have hex := waitPodsReadyLoop_exhaust list labels (timeoutSec / 6 + 1) 0
    (fun i hi => by simpa using h i (Nat.lt_succ_iff.mp hi))
  rw [Nat.zero_add] at hex
  constructor
  · intro hfin
    rw [hfin] at hex
    simpa [WaitPodsReady, waitPodsReady] using hex
  · intro p ps' hfin
    rw [hfin] at hex
    simpa [WaitPodsReady, waitPodsReady] using hex

/-- Witness for C6's amended claim: a selector matching nothing for the whole
window, including the final attempt, yields the NotFound-style error. -/
theorem c6_witness :
    ((fun (_ : Nat) => (.ok [] : Except StoreErr (List Pod))) (6 / 6 + 1) = .ok [] →
      (WaitPodsReady (fun _ => (.ok [] : Except StoreErr (List Pod))) "app=x" 6).1 =
        .error (.errMsg ("pod with label " ++ "app=x" ++ " not found"))) ∧
    (∀ p ps', (fun (_ : Nat) => (.ok [] : Except StoreErr (List Pod))) (6 / 6 + 1) =
        .ok (p :: ps') →
      (WaitPodsReady (fun _ => (.ok [] : Except StoreErr (List Pod))) "app=x" 6).1 =
        .error (.errMsg ("pod " ++ p.name ++ " failed to start"))) :=
  c6_set_ready_exhaust_final_list (fun _ => .ok []) "app=x" 6
    (fun _ _ => ⟨[], rfl, rfl⟩)

/-! ## Claim C8: polling intervals of the three waits (corrected) -/

/-- C8 counterexample: a `WaitPodsReady` run whose trace contains a 1-second
sleep between re-checks and no 6-second sleep, refuting "all three waits
sleep a fixed polling interval of 6 time-units between consecutive
re-checks". -/
theorem c8_counterexample :
    Action.sleep 1 ∈ (WaitPodsReady (fun _ => (.ok [] : Except StoreErr (List Pod)))
      "l" 6).2 ∧
    Action.sleep 6 ∉ (WaitPodsReady (fun _ => (.ok [] : Except StoreErr (List Pod)))
      "l" 6).2 ∧
    (1 : Nat) ≠ 6 := by
  decide

/-- C8 amended: `WaitPodReady` and `WaitPodTerminate` sleep exactly 6 units
between re-checks, but `WaitPodsReady` sleeps exactly 1 unit between
re-checks; the attempt budgets of the two timeout-driven waits are still
derived from `timeoutSec / 6` — at most `timeoutSec / 6 + 1` fetches for
`WaitPodReady` (budget checked before fetching) and `timeoutSec / 6 + 2` for
`WaitPodsReady` (which fetches once more before its budget check fails). -/
theorem c8_sleep_intervals (get : Nat → Except StoreErr Pod)
    (list : Nat → Except StoreErr (List Pod)) (name labels : String)
    (timeoutSec : Nat) :
    (∀ s, Action.sleep s ∈ (WaitPodReady get name timeoutSec).2 → s = 6) ∧
    (∀ s, Action.sleep s ∈ (WaitPodTerminate get name).2 → s = 6) ∧
    (∀ s, Action.sleep s ∈ (WaitPodsReady list labels timeoutSec).2 → s = 1) ∧
    countFetches (WaitPodReady get name timeoutSec).2 ≤ timeoutSec / 6 + 1 ∧
    countFetches (WaitPodsReady list labels timeoutSec).2 ≤ timeoutSec / 6 + 2 := by
  refine ⟨?_, ?_, ?_, ?_, ?_⟩
  · intro s hs
    exact waitPodReadyLoop_sleep get name _ _ s hs
  · intro s hs
    exact waitPodTerminateLoop_sleep get name _ _ s hs
  · intro s hs
    exact waitPodsReadyLoop_sleep list labels _ _ s hs
  · have := waitPodReadyLoop_fetch_bound get name (timeoutSec / 6 + 1) 0
    simpa [WaitPodReady, waitPodReady] using this
  · have := waitPodsReadyLoop_fetch_bound list labels (timeoutSec / 6 + 1) 0
    have h2 : countFetches (WaitPodsReady list labels timeoutSec).2 ≤
        (timeoutSec / 6 + 1) + 1 := by
      simpa [WaitPodsReady, waitPodsReady] using this
    omega

/-- Witness for C8's amended claim: concrete sleeps observed in concrete runs,
and the fetch bounds at timeout 6. -/
theorem c8_witness :
    (6 : Nat) = 6 ∧ (1 : Nat) = 1 ∧
    countFetches (WaitPodReady (fun _ => .ok ⟨"p", "ns", none, PodPhase.Pending, none⟩)
      "p" 6).2 ≤ 6 / 6 + 1 ∧
    countFetches (WaitPodsReady (fun _ => (.ok [] : Except StoreErr (List Pod)))
      "l" 6).2 ≤ 6 / 6 + 2 :=
  ⟨(c8_sleep_intervals (fun _ => .ok ⟨"p", "ns", none, PodPhase.Pending, none⟩)
      (fun _ => .ok []) "p" "l" 6).1 6 (by decide),
   (c8_sleep_intervals (fun _ => .ok ⟨"p", "ns", none, PodPhase.Pending, none⟩)
      (fun _ => .ok []) "p" "l" 6).2.2.1 1 (by decide),
   (c8_sleep_intervals (fun _ => .ok ⟨"p", "ns", none, PodPhase.Pending, none⟩)
      (fun _ => .ok []) "p" "l" 6).2.2.2.1,
   (c8_sleep_intervals (fun _ => .ok ⟨"p", "ns", none, PodPhase.Pending, none⟩)
      (fun _ => .ok []) "p" "l" 6).2.2.2.2⟩

end KtConnect
